import Mathlib

set_option maxHeartbeats 1000000

/-
  Shallow embedding of the line-follower-rs core (geometry, simulation, optimizer).

  The Rust code is generic over a scalar type `F: Float` (instantiated at f32/f64).
  We mirror that by working over an arbitrary `LinearOrderedField F` together with a
  record `FloatOps F` supplying the numeric primitives the code calls (sqrt, cos, sin,
  acos, machine epsilon).  Arc signed distances can be `+infinity` (the Rust code
  returns `F::infinity()`), which we model with `WithTop F`.  Floating point rounding,
  NaN and signed zero are outside the model: values are exact field elements, which is
  where all of the claims live (they are about the algebraic structure of the code).
-/

namespace LineFollowerRs

/- The core rational arithmetic operations are shipped `irreducible`, which
blocks `decide` from evaluating concrete witnesses over ℚ; restore the default
reducibility so that closed rational computations reduce. -/
attribute [local semireducible] Rat.add Rat.mul Rat.inv Rat.sub

/-- Two dimensional point or vector, mirroring nalgebra Point2 and Vector2 over F. -/
@[ext]
structure V2 (F : Type) where
  x : F
  y : F
deriving DecidableEq

variable {F : Type}

instance [Add F] : Add (V2 F) := ⟨fun a b => ⟨a.x + b.x, a.y + b.y⟩⟩

instance [Sub F] : Sub (V2 F) := ⟨fun a b => ⟨a.x - b.x, a.y - b.y⟩⟩

instance [Neg F] : Neg (V2 F) := ⟨fun a => ⟨-a.x, -a.y⟩⟩

/-- Vector times scalar, nalgebra `v * c`. -/
def V2.smul [Mul F] (v : V2 F) (c : F) : V2 F := ⟨v.x * c, v.y * c⟩

/-- Vector divided by scalar, nalgebra `v / c`. -/
def V2.divScalar [Div F] (v : V2 F) (c : F) : V2 F := ⟨v.x / c, v.y / c⟩

/-- Dot product, nalgebra `a.dot(&b)`. -/
def V2.dot [Mul F] [Add F] (a b : V2 F) : F := a.x * b.x + a.y * b.y

/-- Cross product of 2d vectors, from `linefollower_core/src/utils/math.rs`:
`cross(a, b) = a.x * b.y - a.y * b.x`. -/
def V2.cross [Mul F] [Sub F] (a b : V2 F) : F := a.x * b.y - a.y * b.x

/-- Numeric primitives the generic Rust code obtains from the `Float` trait.
They are parameters of the embedding, exactly as `F: Float` is a parameter of
the Rust code. -/
structure FloatOps (F : Type) where
  sqrt : F → F
  cos : F → F
  sin : F → F
  acos : F → F
  eps : F

/-- Euclidean norm of a vector, nalgebra `v.norm() = sqrt(v.dot(v))`. -/
def V2.norm [Mul F] [Add F] (ops : FloatOps F) (v : V2 F) : F :=
  ops.sqrt (v.x * v.x + v.y * v.y)

/-- nalgebra `distance(&p, &q)`. -/
def dist2 [Mul F] [Add F] [Sub F] (ops : FloatOps F) (p q : V2 F) : F :=
  V2.norm ops (p - q)

/-- nalgebra `distance_squared(&p, &q)` (no square root involved). -/
def distSq [Mul F] [Add F] [Sub F] (p q : V2 F) : F :=
  V2.dot (p - q) (p - q)

/-- Rust `f64::signum` on exact (non-NaN) values: 1 for positive, -1 for negative.
Exact zero is the positive-zero case of f64, whose signum is 1. -/
def rustSignum [LinearOrderedField F] (x : F) : F :=
  if x < 0 then -1 else 1

/-- Rust `f64::min` on ordered (non-NaN) values. -/
def rustFMin [LinearOrder F] (a b : F) : F :=
  if a < b then a else b

/-- Truncation toward zero, the rounding used by the Rust `%` remainder on floats. -/
def rustTrunc [LinearOrderedField F] [FloorRing F] (x : F) : F :=
  if 0 ≤ x then (⌊x⌋ : F) else (⌈x⌉ : F)

/-- Rust float remainder `a % b = a - b * trunc(a / b)`. -/
def rustRem [LinearOrderedField F] [FloorRing F] (a b : F) : F :=
  a - b * rustTrunc (a / b)

/-- Absolute value extended to the `+infinity` point: `abs(+inf) = +inf`. -/
def wabs [LinearOrderedField F] : WithTop F → WithTop F :=
  WithTop.map (fun x => |x|)

/-- Accumulator of the Rust `Iterator::min_by` reduction (keyed by `wabs ∘ key`):
the running minimum is replaced only when a strictly smaller key shows up, so the
first of several tied minima is kept, exactly as `min_by` documents. -/
def minByAbsKeyAux [LinearOrderedField F] {α : Type} (key : α → WithTop F) :
    α → List α → α
  | m, [] => m
  | m, a :: l => minByAbsKeyAux key (if wabs (key a) < wabs (key m) then a else m) l

/-- Rust `Iterator::min_by` keyed by absolute value; `none` exactly when the
iterator is empty (the case in which the Rust `.unwrap()` would panic). -/
def minByAbsKey [LinearOrderedField F] {α : Type} (key : α → WithTop F) :
    List α → Option α
  | [] => none
  | a :: l => some (minByAbsKeyAux key a l)

/-- Line segment, from `src/geometry/line_path.rs`.  The derived fields `length`
and `v` (unit direction) are computed by `LinePath::new`. -/
structure LinePath (F : Type) where
  p0 : V2 F
  p1 : V2 F
  length : F
  v : V2 F
deriving DecidableEq

/-- `LinePath::new`: derives `length = distance(p0, p1)` and `v = (p1 - p0) / length`.
The Rust constructor asserts `length != 0` (degenerate lines abort). -/
def LinePath.new [LinearOrderedField F] (ops : FloatOps F) (p0 p1 : V2 F) : LinePath F :=
  let length := dist2 ops p0 p1
  { p0 := p0, p1 := p1, length := length, v := V2.divScalar (p1 - p0) length }

/-- `LinePath::sdf`: cross-product signed perpendicular offset; if the projection
of the point falls outside `[0, length]`, the sign of that offset is combined with
the distance to the nearer endpoint. -/
def LinePath.sdf [LinearOrderedField F] (ops : FloatOps F) (l : LinePath F) (p : V2 F) : F :=
  let u := p - l.p0
  let v := l.p1 - l.p0
  let signed_dist := V2.cross u v / l.length
  let dot := V2.dot u l.v
  if ¬(0 ≤ dot ∧ dot ≤ l.length) then
    let d0 := dist2 ops p l.p0
    let d1 := dist2 ops p l.p1
    rustSignum signed_dist * rustFMin d0 d1
  else
    signed_dist

/-- `LinePath::point_at(d) = p0 + v * d`. -/
def LinePath.point_at [LinearOrderedField F] (l : LinePath F) (d : F) : V2 F :=
  l.p0 + V2.smul l.v d

/-- `LinePath::tangent_at(_) = (p1 - p0) / length`. -/
def LinePath.tangent_at [LinearOrderedField F] (l : LinePath F) (_d : F) : V2 F :=
  V2.divScalar (l.p1 - l.p0) l.length

/-- `LinePath::first_point` (overrides the trait default, returns `p0`). -/
def LinePath.first_point (l : LinePath F) : V2 F := l.p0

/-- Trait default `last_point = point_at(length)` (LinePath does not override it). -/
def LinePath.last_point [LinearOrderedField F] (l : LinePath F) : V2 F :=
  l.point_at l.length

/-- `LinePath::point_projection_distance(p) = (p - p0) . v`. -/
def LinePath.point_projection_distance [LinearOrderedField F] (l : LinePath F) (p : V2 F) : F :=
  V2.dot (p - l.p0) l.v

/-- `LinePath::point_projection_tangent(_) = v`. -/
def LinePath.point_projection_tangent (l : LinePath F) (_p : V2 F) : V2 F := l.v

/-- Arc segment, from `linefollower_core/src/geometry/arc_path.rs`.  Derived
fields as computed by `ArcPath::new`. -/
structure ArcPath (F : Type) where
  center : V2 F
  r : F
  theta0 : F
  theta1 : F
  p0 : V2 F
  v0 : V2 F
  v1 : V2 F
  counterclockwise : Bool
  length : F
deriving DecidableEq

/-- `ArcPath::new`: derives orientation, length `r * |theta1 - theta0|`, the unit
radius vectors at the two endpoint angles and the first point.  The Rust
constructor asserts `theta1 - theta0 != 0` (degenerate arcs abort). -/
def ArcPath.new [LinearOrderedField F] (ops : FloatOps F)
    (center : V2 F) (r theta0 theta1 : F) : ArcPath F :=
  let delta_t := theta1 - theta0
  let v0 : V2 F := ⟨ops.cos theta0, ops.sin theta0⟩
  let v1 : V2 F := ⟨ops.cos theta1, ops.sin theta1⟩
  { center := center, r := r, theta0 := theta0, theta1 := theta1
    p0 := center + V2.smul v0 r, v0 := v0, v1 := v1
    counterclockwise := decide (0 < delta_t), length := r * |delta_t| }

/-- `ArcPath::within_bounds`: cross-product sector test against the endpoint
radius vectors, with the comparison direction depending on orientation. -/
def ArcPath.within_bounds [LinearOrderedField F] (a : ArcPath F) (p : V2 F) : Bool :=
  let v := p - a.center
  let ord0 := V2.cross a.v0 v
  let ord1 := V2.cross v a.v1
  match a.counterclockwise with
  | true => decide (0 ≤ ord0) && decide (0 ≤ ord1)
  | false => decide (ord0 ≤ 0) && decide (ord1 ≤ 0)

/-- `ArcPath::sdf`: `+infinity` outside `within_bounds`, otherwise the distance
to the center minus the radius, negated for clockwise arcs. -/
def ArcPath.sdf [LinearOrderedField F] (ops : FloatOps F) (a : ArcPath F) (p : V2 F) :
    WithTop F :=
  if a.within_bounds p then
    some (if a.counterclockwise then dist2 ops p a.center - a.r
          else -(dist2 ops p a.center - a.r))
  else
    ⊤

/-- `ArcPath::point_at(d)`: walk an angle `±d/r` from `theta0`. -/
def ArcPath.point_at [LinearOrderedField F] (ops : FloatOps F) (a : ArcPath F) (d : F) : V2 F :=
  let theta := if a.counterclockwise then d / a.r else -d / a.r
  a.center + V2.smul ⟨ops.cos (a.theta0 + theta), ops.sin (a.theta0 + theta)⟩ a.r

/-- `ArcPath::tangent_at(d)`: angular derivative, negated for clockwise arcs. -/
def ArcPath.tangent_at [LinearOrderedField F] (ops : FloatOps F) (a : ArcPath F) (d : F) : V2 F :=
  let theta := if a.counterclockwise then d / a.r else -d / a.r
  let v : V2 F := ⟨-ops.sin (a.theta0 + theta), ops.cos (a.theta0 + theta)⟩
  if a.counterclockwise then v else -v

/-- `ArcPath::first_point` (overrides the trait default, returns the derived `p0`). -/
def ArcPath.first_point (a : ArcPath F) : V2 F := a.p0

/-- Trait default `last_point = point_at(length)` (ArcPath does not override it). -/
def ArcPath.last_point [LinearOrderedField F] (ops : FloatOps F) (a : ArcPath F) : V2 F :=
  a.point_at ops a.length

/-- nalgebra `a.angle(&b) = acos(a.dot(b) / (a.norm() * b.norm()))`. -/
def V2.angle [LinearOrderedField F] (ops : FloatOps F) (a b : V2 F) : F :=
  ops.acos (V2.dot a b / (V2.norm ops a * V2.norm ops b))

/-- `ArcPath::point_projection_distance(p) = r * (p - center).angle(&v0)`. -/
def ArcPath.point_projection_distance [LinearOrderedField F] (ops : FloatOps F)
    (a : ArcPath F) (p : V2 F) : F :=
  a.r * V2.angle ops (p - a.center) a.v0

/-- `ArcPath::point_projection_tangent(p) = tangent_at(point_projection_distance(p))`. -/
def ArcPath.point_projection_tangent [LinearOrderedField F] (ops : FloatOps F)
    (a : ArcPath F) (p : V2 F) : V2 F :=
  a.tangent_at ops (a.point_projection_distance ops p)

/-- Tagged union of segment kinds, `enum SubPath` in
`linefollower_core/src/geometry/closed_path.rs`. -/
inductive SubPath (F : Type) where
  | arc (a : ArcPath F)
  | line (l : LinePath F)
deriving DecidableEq

instance [Zero F] : Inhabited (SubPath F) where
  default := SubPath.line ⟨⟨0, 0⟩, ⟨0, 0⟩, 0, ⟨0, 0⟩⟩

/-- Dispatch of `sdf` over the segment kinds.  A line signed distance is always a
finite field element; an arc signed distance may be `+infinity`. -/
def SubPath.sdf [LinearOrderedField F] (ops : FloatOps F) (s : SubPath F) (p : V2 F) :
    WithTop F :=
  match s with
  | SubPath.arc a => a.sdf ops p
  | SubPath.line l => some (l.sdf ops p)

/-- Dispatch of `length`. -/
def SubPath.length (s : SubPath F) : F :=
  match s with
  | SubPath.arc a => a.length
  | SubPath.line l => l.length

/-- Dispatch of `point_at`. -/
def SubPath.point_at [LinearOrderedField F] (ops : FloatOps F) (s : SubPath F) (d : F) : V2 F :=
  match s with
  | SubPath.arc a => a.point_at ops d
  | SubPath.line l => l.point_at d

/-- Dispatch of `tangent_at`. -/
def SubPath.tangent_at [LinearOrderedField F] (ops : FloatOps F) (s : SubPath F) (d : F) : V2 F :=
  match s with
  | SubPath.arc a => a.tangent_at ops d
  | SubPath.line l => l.tangent_at d

/-- Dispatch of `first_point`. -/
def SubPath.first_point (s : SubPath F) : V2 F :=
  match s with
  | SubPath.arc a => a.first_point
  | SubPath.line l => l.first_point

/-- Dispatch of the trait-default `last_point`. -/
def SubPath.last_point [LinearOrderedField F] (ops : FloatOps F) (s : SubPath F) : V2 F :=
  match s with
  | SubPath.arc a => a.last_point ops
  | SubPath.line l => l.last_point

/-- Dispatch of `point_projection_tangent`. -/
def SubPath.point_projection_tangent [LinearOrderedField F] (ops : FloatOps F)
    (s : SubPath F) (p : V2 F) : V2 F :=
  match s with
  | SubPath.arc a => a.point_projection_tangent ops p
  | SubPath.line l => l.point_projection_tangent p

/-- Closed loop of segments, `struct ClosedPath` in
`linefollower_core/src/geometry/closed_path.rs`. -/
structure ClosedPath (F : Type) where
  p0 : V2 F
  subpaths : List (SubPath F)
  starts : List F
  length : F
deriving DecidableEq

/-- `is_valid_closed_path`: at least two segments, every pair of adjacent
segments shares an endpoint within `epsilon = F::epsilon() * 100`, and the last
point closes back onto the first.  `chainCloses prev rest` walks the tail,
comparing each first point with the previous last point; `firstPt` is the first
point of the whole loop, compared at the end. -/
def chainCloses [LinearOrderedField F] (ops : FloatOps F) (epsilon : F) (firstPt : V2 F) :
    V2 F → List (SubPath F) → Bool
  | prev, [] => decide (¬ epsilon < V2.norm ops (firstPt - prev))
  | prev, sp :: rest =>
    if epsilon < V2.norm ops (sp.first_point - prev) then false
    else chainCloses ops epsilon firstPt (sp.last_point ops) rest

/-- `is_valid_closed_path` from `closed_path.rs`. -/
def is_valid_closed_path [LinearOrderedField F] (ops : FloatOps F)
    (subpaths : List (SubPath F)) : Bool :=
  if subpaths.length < 2 then false
  else
    match subpaths with
    | [] => false
    | s0 :: rest =>
      let epsilon := ops.eps * 100
      chainCloses ops epsilon s0.first_point (s0.last_point ops) rest

/-- Cumulative start arclengths, the `scan` in `ClosedPath::new`: entry `i` is the
sum of the lengths of the segments before segment `i`. -/
def scanStarts [LinearOrderedField F] : F → List (SubPath F) → List F
  | _, [] => []
  | acc, sp :: rest => acc :: scanStarts (acc + sp.length) rest

/-- `ClosedPath::new`.  `debugAssertions` mirrors the Rust `cfg!(debug_assertions)`
flag: the validity check is a `debug_assert!`, so it panics (produces no value)
only in builds with debug assertions enabled.  The `.unwrap()` calls on
`starts.last()` / `subpaths.first()` / `subpaths.last()` panic on an empty list in
every build, hence `none` for the empty list as well. -/
def ClosedPath.new [LinearOrderedField F] (ops : FloatOps F) (debugAssertions : Bool)
    (subpaths : List (SubPath F)) : Option (ClosedPath F) :=
  if debugAssertions && !is_valid_closed_path ops subpaths then none
  else
    match subpaths with
    | [] => none
    | s0 :: rest =>
      let length := (scanStarts 0 (s0 :: rest)).getLast (by simp [scanStarts])
        + ((s0 :: rest).getLast (by simp)).length
      some { p0 := s0.point_at ops 0, subpaths := s0 :: rest,
             starts := scanStarts 0 (s0 :: rest), length := length }

/-- `ClosedPath::first_subpath_dist`: reduce `d` with the Rust `%` remainder by the
total length, then `starts.partition_point(|x| x < d).saturating_sub(1)` picks the
owning segment (for the validated, hence sorted, table this is the number of
entries strictly below `d`, minus one, clamped at zero) and the segment-local
offset is `d - starts[i]`.  List indexing out of range cannot occur for a path
built by `ClosedPath::new`; `getD` supplies an irrelevant default. -/
def ClosedPath.first_subpath_dist [LinearOrderedField F] [FloorRing F]
    (c : ClosedPath F) (d : F) : F × SubPath F :=
  let d' := rustRem d c.length
  let i := (c.starts.takeWhile (fun x => decide (x < d'))).length - 1
  (d' - c.starts.getD i 0, c.subpaths.getD i default)

/-- `ClosedPath::closest_subpath`: `min_by` over the segments keyed by the
absolute value of the signed distance; `none` exactly in the empty case where the
Rust `.unwrap()` would panic. -/
def ClosedPath.closest_subpath [LinearOrderedField F] (ops : FloatOps F)
    (c : ClosedPath F) (p : V2 F) : Option (SubPath F) :=
  minByAbsKey (fun sp => SubPath.sdf ops sp p) c.subpaths

/-- `ClosedPath::sdf` before the final `.unwrap()`: map every segment to its
signed distance and take the `min_by` keyed by absolute value. -/
def ClosedPath.sdfRaw [LinearOrderedField F] (ops : FloatOps F)
    (c : ClosedPath F) (p : V2 F) : Option (WithTop F) :=
  minByAbsKey id (c.subpaths.map (fun sp => SubPath.sdf ops sp p))

/-- `ClosedPath::sdf`.  The `.unwrap()` panics only for an empty segment list,
which `ClosedPath::new` never produces; the `⊤` default is irrelevant there. -/
def ClosedPath.sdf [LinearOrderedField F] (ops : FloatOps F)
    (c : ClosedPath F) (p : V2 F) : WithTop F :=
  (c.sdfRaw ops p).getD ⊤

/-- `ClosedPath::point_at` via `first_subpath_dist`. -/
def ClosedPath.point_at [LinearOrderedField F] [FloorRing F] (ops : FloatOps F)
    (c : ClosedPath F) (d : F) : V2 F :=
  let xd := c.first_subpath_dist d
  xd.2.point_at ops xd.1

/-- `ClosedPath::tangent_at` via `first_subpath_dist`. -/
def ClosedPath.tangent_at [LinearOrderedField F] [FloorRing F] (ops : FloatOps F)
    (c : ClosedPath F) (d : F) : V2 F :=
  let xd := c.first_subpath_dist d
  xd.2.tangent_at ops xd.1

/-- `ClosedPath::point_projection_tangent`: tangent of the closest segment at the
projection of `p`.  The `none` branch is the unreachable empty-path case. -/
def ClosedPath.point_projection_tangent [LinearOrderedField F] (ops : FloatOps F)
    (c : ClosedPath F) (p : V2 F) : V2 F :=
  match c.closest_subpath ops p with
  | some sp => sp.point_projection_tangent ops p
  | none => ⟨0, 0⟩

/-- State of the ODE integrator of `src/simulation/integrator.rs`: current time
and state vector (the derivative function is passed separately, since in the
embedding it is a pure function rather than a stored closure). -/
@[ext]
structure OdeState (n : ℕ) (F : Type) where
  t : F
  x : Fin n → F

/-- `Rk4::step(dt, u)`: classic 4-stage Runge-Kutta step with the control input
`u` passed unchanged to all four stage evaluations (zero-order hold).  A total
function: there is no failure path. -/
def Rk4.step [LinearOrderedField F] {n m : ℕ}
    (f : F → (Fin n → F) → (Fin m → F) → (Fin n → F))
    (dt : F) (u : Fin m → F) (s : OdeState n F) : OdeState n F :=
  let k1 := f s.t s.x u
  let k2 := f (s.t + dt / 2) (fun j => s.x j + dt * k1 j / 2) u
  let k3 := f (s.t + dt / 2) (fun j => s.x j + dt * k2 j / 2) u
  let k4 := f (s.t + dt) (fun j => s.x j + dt * k3 j) u
  { t := s.t + dt
    x := fun j => s.x j + dt * (k1 j + 2 * k2 j + 2 * k3 j + k4 j) / 6 }

/-- `ROBOT_WHEEL_RADIUS = 0.04` from `linefollower_core/src/simulation/robot.rs`. -/
def ROBOT_WHEEL_RADIUS [LinearOrderedField F] : F := 4 / 100

/-- `ROBOT_SIDE_LENGTH = 0.1`. -/
def ROBOT_SIDE_LENGTH [LinearOrderedField F] : F := 1 / 10

/-- Natural frequency `W0 = 20.0` of the wheel second-order model. -/
def wheelW0 [LinearOrderedField F] : F := 20

/-- Damping ratio `XI = 0.71` of the wheel second-order model. -/
def wheelXI [LinearOrderedField F] : F := 71 / 100

/-- `C0 = 1 / (W0 * W0)`. -/
def dynC0 [LinearOrderedField F] : F := 1 / (wheelW0 * wheelW0)

/-- `C1 = 2 * XI / W0`. -/
def dynC1 [LinearOrderedField F] : F := 2 * wheelXI / wheelW0

/-- `C2 = 1.0`. -/
def dynC2 [LinearOrderedField F] : F := 1

/-- `struct RobotSimulation`.  The integrator state `(t, x)` is stored once (the
Rust struct keeps `state` as a copy of the integrator state, updated from it
after every step, and `integrator.t` advances in lockstep with nothing else
reading it). -/
@[ext]
structure RobotSimulation (F : Type) where
  t : F
  x : Fin 7 → F
  controls : Fin 2 → F
  path : ClosedPath F
  prev_error : F
  int_error : F
  kp : F
  ki : F
  kd : F
  speed : F
  time : F

/-- `RobotSimulation::new(x0, kp, ki, kd, speed, path)`: zero controls, zero PID
bookkeeping, time 0. -/
def RobotSimulation.new [LinearOrderedField F] (x0 : Fin 7 → F)
    (kp ki kd speed : F) (path : ClosedPath F) : RobotSimulation F :=
  { t := 0, x := x0, controls := fun _ => 0, path := path, prev_error := 0,
    int_error := 0, kp := kp, ki := ki, kd := kd, speed := speed, time := 0 }

/-- `RobotSimulation::robot_position` = (state[0], state[1]). -/
def RobotSimulation.robot_position (s : RobotSimulation F) : V2 F :=
  ⟨s.x 0, s.x 1⟩

/-- `RobotSimulation::robot_sdf_to_path` = `path.sdf(robot_position)`. -/
def RobotSimulation.robot_sdf_to_path [LinearOrderedField F] (ops : FloatOps F)
    (s : RobotSimulation F) : WithTop F :=
  s.path.sdf ops s.robot_position

/-- The finite value of the signed distance used in the control arithmetic.  The
model covers finite signed distances; the default in the `⊤` branch is never
used under the finiteness hypotheses of the theorems below (an infinite f64
signed distance would propagate non-finite values through the controller, which
the spec declares undefined behavior to be prevented upstream). -/
def RobotSimulation.theta_error_estimate [LinearOrderedField F] (ops : FloatOps F)
    (s : RobotSimulation F) : F :=
  WithTop.untop' 0 (s.robot_sdf_to_path ops)

/-- `RobotSimulation::reference_point` = `path.point_at(speed * time)`. -/
def RobotSimulation.reference_point [LinearOrderedField F] [FloorRing F] (ops : FloatOps F)
    (s : RobotSimulation F) : V2 F :=
  s.path.point_at ops (s.speed * s.time)

/-- `RobotSimulation::reference_tangent` = `path.tangent_at(speed * time)`. -/
def RobotSimulation.reference_tangent [LinearOrderedField F] [FloorRing F] (ops : FloatOps F)
    (s : RobotSimulation F) : V2 F :=
  s.path.tangent_at ops (s.speed * s.time)

/-- `RobotSimulation::robot_projection_tangent` =
`path.point_projection_tangent(robot_position)`. -/
def RobotSimulation.robot_projection_tangent [LinearOrderedField F] (ops : FloatOps F)
    (s : RobotSimulation F) : V2 F :=
  s.path.point_projection_tangent ops s.robot_position

/-- `RobotSimulation::robot_error` = squared distance between the reference point
and the robot position. -/
def RobotSimulation.robot_error [LinearOrderedField F] [FloorRing F] (ops : FloatOps F)
    (s : RobotSimulation F) : F :=
  distSq (s.reference_point ops) s.robot_position

/-- `RobotSimulation::robot_velocity_reward`: forward speed
`ROBOT_WHEEL_RADIUS * (wl + wr) / 2` along the heading, dotted with the
projection tangent at the robot position (the reference-tangent line of the
source is commented out). -/
def RobotSimulation.robot_velocity_reward [LinearOrderedField F] (ops : FloatOps F)
    (s : RobotSimulation F) : F :=
  let wl := s.x 3
  let wr := s.x 5
  let theta := s.x 2
  let speed := ROBOT_WHEEL_RADIUS * (wl + wr) / 2
  let vx := speed * ops.cos theta
  let vy := speed * ops.sin theta
  let vt := s.robot_projection_tangent ops
  vx * vt.x + vy * vt.y

/-- `RobotSimulation::robot_dynamics`: differential-drive kinematics plus a
second-order model of each wheel. -/
def robot_dynamics [LinearOrderedField F] (ops : FloatOps F) :
    F → (Fin 7 → F) → (Fin 2 → F) → (Fin 7 → F) :=
  fun _ x u =>
    let theta := x 2
    let wl := x 3
    let dwl := x 4
    let wr := x 5
    let dwr := x 6
    let ul := u 0
    let ur := u 1
    let speed := ROBOT_WHEEL_RADIUS * (wl + wr) / 2
    let d_theta := ROBOT_WHEEL_RADIUS * (wr - wl) / ROBOT_SIDE_LENGTH
    ![speed * ops.cos theta, speed * ops.sin theta, d_theta,
      dwl, (ul - dynC1 * dwl - dynC2 * wl) / dynC0,
      dwr, (ur - dynC1 * dwr - dynC2 * wr) / dynC0]

/-- `RobotSimulation::calculate_control(dt)` packaged with the PID bookkeeping it
mutates: returns (controls, new int_error, new prev_error) in the order the Rust
code computes them: derivative from the previous error, integral accumulated
with the previous error before it is overwritten, then the split into
`(ul, ur) = ((um - v) / 2, (um + v) / 2)`. -/
def RobotSimulation.calculate_control [LinearOrderedField F] (ops : FloatOps F)
    (s : RobotSimulation F) (dt : F) : (Fin 2 → F) × F × F :=
  let error_estimate := s.theta_error_estimate ops
  let deriv_error := (error_estimate - s.prev_error) / dt
  let int_error := s.int_error + s.prev_error * dt
  let prev_error := error_estimate
  let desired_dtheta := s.kp * error_estimate + s.ki * int_error + s.kd * deriv_error
  let k := ROBOT_SIDE_LENGTH * dynC2 / ROBOT_WHEEL_RADIUS
  let v := k * desired_dtheta
  let um := 2 * s.speed * dynC2 / ROBOT_WHEEL_RADIUS
  let ul := (um - v) / 2
  let ur := (um + v) / 2
  (![ul, ur], int_error, prev_error)

/-- `RobotSimulation::step(dt)`: compute the control, hold it constant through one
RK4 step of the dynamics, copy the integrator state back, advance time. -/
def RobotSimulation.step [LinearOrderedField F] (ops : FloatOps F) (dt : F)
    (s : RobotSimulation F) : RobotSimulation F :=
  let cc := s.calculate_control ops dt
  let u := cc.1
  let intE := cc.2.1
  let prevE := cc.2.2
  let next := Rk4.step (robot_dynamics ops) dt u ⟨s.t, s.x⟩
  { s with
    t := next.t
    x := next.x
    controls := u
    int_error := intE
    prev_error := prevE
    time := s.time + dt }

/-- Error weight `W0 = 0.5` of `RobotOptimizer::evaluate_fitness`
(`linefollower_optim_cli/src/optimizer.rs`). -/
def fitWE [LinearOrderedField F] : F := 1 / 2

/-- Cross-track weight `W1 = 0.9` of `RobotOptimizer::evaluate_fitness`. -/
def fitWD [LinearOrderedField F] : F := 9 / 10

/-- The reward accumulated for one tick of `evaluate_fitness`, evaluated on the
state before the tick advances: `(ve - W0 * e - W1 * dist_err^2) * dt`. -/
def fitnessReward [LinearOrderedField F] [FloorRing F] (ops : FloatOps F) (dt : F)
    (s : RobotSimulation F) : F :=
  let e := s.robot_error ops
  let dist_err := s.theta_error_estimate ops
  let ve := s.robot_velocity_reward ops
  (ve - fitWE * e - fitWD * (dist_err * dist_err)) * dt

/-- The `for` loop of `evaluate_fitness`: accumulate the tick reward, then step. -/
def fitnessLoop [LinearOrderedField F] [FloorRing F] (ops : FloatOps F) (dt : F) :
    ℕ → RobotSimulation F → F → F
  | 0, _, fitness => fitness
  | n + 1, s, fitness =>
    fitnessLoop ops dt n (RobotSimulation.step ops dt s) (fitness + fitnessReward ops dt s)

/-- Initial state `[0, -4, 0.1, 0, 0, 0, 0]` of `evaluate_fitness`. -/
def fitX0 [LinearOrderedField F] : Fin 7 → F := ![0, -4, 1 / 10, 0, 0, 0, 0]

/-- `RobotOptimizer::evaluate_fitness(kp, ki, kd, speed)` with horizon `maxIter`
ticks of period `dt` over `path`. -/
def evaluate_fitness [LinearOrderedField F] [FloorRing F] (ops : FloatOps F)
    (maxIter : ℕ) (dt : F) (path : ClosedPath F) (kp ki kd speed : F) : F :=
  fitnessLoop ops dt maxIter (RobotSimulation.new fitX0 kp ki kd speed path) 0

/-! Specification-side definitions, written from the wording of the spec and the
claims (not from the code), to be compared with the embedded code. -/

/-- Spec wording of one RK4 step (claim C6): `k1 = f(t, x, u)`,
`k2 = f(t + dt/2, x + dt*k1/2, u)`, `k3 = f(t + dt/2, x + dt*k2/2, u)`,
`k4 = f(t + dt, x + dt*k3, u)`, `x += dt*(k1 + 2*k2 + 2*k3 + k4)/6`, `t += dt`,
with the same `u` at all four stages. -/
def specRk4Step [LinearOrderedField F] {n m : ℕ}
    (f : F → (Fin n → F) → (Fin m → F) → (Fin n → F))
    (dt : F) (u : Fin m → F) (s : OdeState n F) : OdeState n F :=
  let k1 := f s.t s.x u
  let k2 := f (s.t + dt / 2) (fun j => s.x j + (dt / 2) * k1 j) u
  let k3 := f (s.t + dt / 2) (fun j => s.x j + (dt / 2) * k2 j) u
  let k4 := f (s.t + dt) (fun j => s.x j + dt * k3 j) u
  { t := s.t + dt
    x := fun j => s.x j + (dt / 6) * (k1 j + 2 * k2 j + 2 * k3 j + k4 j) }

/-- Spec wording of one control-and-step tick (claim C5), given the finite
signed-distance error `e` at the robot position: derivative from the previous
error, integral accumulated with the previous error, previous error overwritten
with `e`, then `v = (side_length * C2 / wheel_radius) * (kp*e + ki*int + kd*deriv)`,
`um = 2 * speed * C2 / wheel_radius`, `(ul, ur) = ((um-v)/2, (um+v)/2)` held
constant through the RK4 step, and time advanced by `dt`. -/
def specStepC5 [LinearOrderedField F] (ops : FloatOps F) (dt : F)
    (s : RobotSimulation F) (e : F) : RobotSimulation F :=
  let deriv_error := (e - s.prev_error) / dt
  let int_error := s.int_error + s.prev_error * dt
  let v := (ROBOT_SIDE_LENGTH * dynC2 / ROBOT_WHEEL_RADIUS)
    * (s.kp * e + s.ki * int_error + s.kd * deriv_error)
  let um := 2 * s.speed * dynC2 / ROBOT_WHEEL_RADIUS
  let u : Fin 2 → F := ![(um - v) / 2, (um + v) / 2]
  { s with
    t := s.t + dt
    x := (Rk4.step (robot_dynamics ops) dt u ⟨s.t, s.x⟩).x
    controls := u
    int_error := int_error
    prev_error := e
    time := s.time + dt }

/-- The robot's instantaneous velocity vector per the spec wording of claim C7:
forward speed `wheel_radius * (wl + wr) / 2` along the heading `theta`. -/
def specRobotVelocity [LinearOrderedField F] (ops : FloatOps F)
    (s : RobotSimulation F) : V2 F :=
  V2.smul ⟨ops.cos (s.x 2), ops.sin (s.x 2)⟩ (ROBOT_WHEEL_RADIUS * (s.x 3 + s.x 5) / 2)

/-- Claim C7's asserted value of the velocity reward: velocity dotted with the
tangent at the time-parameterized reference position `tangent_at(speed * time)`. -/
def specVelocityRewardRef [LinearOrderedField F] [FloorRing F] (ops : FloatOps F)
    (s : RobotSimulation F) : F :=
  V2.dot (specRobotVelocity ops s) (s.reference_tangent ops)

/-- Claim C3's notion of the query point being angularly between `theta0` and
`theta1` in the rotational sense of the arc: the point lies at a positive radius
in the direction of some angle `t` between the endpoint angles (endpoint angles
traversed increasing for counterclockwise arcs, decreasing for clockwise). -/
def angularlyBetween [LinearOrderedField F] (ops : FloatOps F) (a : ArcPath F)
    (p : V2 F) : Prop :=
  ∃ t c : F, 0 < c ∧
    ((a.counterclockwise = true ∧ a.theta0 ≤ t ∧ t ≤ a.theta1) ∨
     (a.counterclockwise = false ∧ a.theta1 ≤ t ∧ t ≤ a.theta0)) ∧
    p = a.center + V2.smul ⟨ops.cos t, ops.sin t⟩ c

/-- Claim C3 as stated, at one instance: if the point is angularly between the
endpoint angles the signed distance is `distance(p, center) - r` (sign flipped
for clockwise arcs), otherwise it is `+infinity`. -/
def claimC3Statement [LinearOrderedField F] (ops : FloatOps F)
    (center : V2 F) (r theta0 theta1 : F) (p : V2 F) : Prop :=
  let a := ArcPath.new ops center r theta0 theta1
  (angularlyBetween ops a p →
    a.sdf ops p = some (if a.counterclockwise then dist2 ops p a.center - a.r
                        else -(dist2 ops p a.center - a.r))) ∧
  (¬ angularlyBetween ops a p → a.sdf ops p = ⊤)

/-- Amended description of the arc signed distance (claim C3 corrected): the
region the arc claims is decided by the cross-product sector test against the
endpoint radius vectors (which agrees with angular betweenness only for spans of
at most pi), and inside it the value is `distance(p, center) - r` with the sign
flipped for clockwise arcs. -/
def specArcSdfAmended [LinearOrderedField F] (ops : FloatOps F) (a : ArcPath F)
    (p : V2 F) : WithTop F :=
  let w := p - a.center
  if (a.counterclockwise = true ∧ 0 ≤ V2.cross a.v0 w ∧ 0 ≤ V2.cross w a.v1) ∨
     (a.counterclockwise = false ∧ V2.cross a.v0 w ≤ 0 ∧ V2.cross w a.v1 ≤ 0)
  then some ((if a.counterclockwise then 1 else -1) * (dist2 ops p a.center - a.r))
  else ⊤

/-- Claim C9's asserted owning-segment index: the last entry of the
cumulative-start table whose start is at most the reduced `d` (for the sorted
table this is the number of entries `≤ d`, minus one). -/
def specC9Index [LinearOrderedField F] (c : ClosedPath F) (d' : F) : ℕ :=
  (c.starts.takeWhile (fun x => decide (x ≤ d'))).length - 1

/-- Claim C9's asserted `first_subpath_dist`. -/
def specC9FirstSubpath [LinearOrderedField F] [FloorRing F] (c : ClosedPath F)
    (d : F) : F × SubPath F :=
  let d' := rustRem d c.length
  let i := specC9Index c d'
  (d' - c.starts.getD i 0, c.subpaths.getD i default)

/-- Claim C9's asserted `tangent_at`. -/
def specC9TangentAt [LinearOrderedField F] [FloorRing F] (ops : FloatOps F)
    (c : ClosedPath F) (d : F) : V2 F :=
  let xd := specC9FirstSubpath c d
  xd.2.tangent_at ops xd.1

/-- Spec wording of the optimizer fitness (claim C8): the sum over the `N` ticks
of `(velocity_reward - w_e * squared_error - w_d * squared_cross_track) * dt`,
each term evaluated on the state before that tick's step. -/
def specFitnessSum [LinearOrderedField F] [FloorRing F] (ops : FloatOps F)
    (maxIter : ℕ) (dt : F) (path : ClosedPath F) (kp ki kd speed : F) : F :=
  ∑ i ∈ Finset.range maxIter,
    (fun s : RobotSimulation F =>
      (s.robot_velocity_reward ops - fitWE * s.robot_error ops
        - fitWD * (s.theta_error_estimate ops * s.theta_error_estimate ops)) * dt)
    ((RobotSimulation.step ops dt)^[i] (RobotSimulation.new fitX0 kp ki kd speed path))

/-! Concrete instantiations used by witnesses and counterexamples.  The Rust
code is generic over `F: Float`; these instantiate `F := ℚ` with explicit
numeric primitives.  `ratSqrt` is the exact square root on rationals whose
numerator and denominator are perfect squares (all witness geometry is chosen so
that every square root that influences a result is exact), and the trigonometric
tables list the finitely many angle values the witnesses evaluate. -/

/-- Integer square root by linear scan (structurally recursive, so concrete
values reduce inside the kernel, unlike the Newton iteration of `Nat.sqrt`). -/
def natSqrtLin (n : ℕ) : ℕ :=
  ((List.range (n + 1)).filter (fun k => decide (k * k ≤ n))).length - 1

/-- Exact rational square root (exact on perfect squares, 0 elsewhere; every
witness below only takes square roots of perfect squares). -/
def ratSqrt (q : ℚ) : ℚ :=
  let n := q.num.toNat
  let d := q.den
  let sn := natSqrtLin n
  let sd := natSqrtLin d
  if sn * sn = n ∧ sd * sd = d then (sn : ℚ) / (sd : ℚ) else 0

/-- Rational instantiation used for the line-only witnesses: only the cosine and
sine of the heading 0 are ever evaluated. -/
def qops : FloatOps ℚ :=
  { sqrt := ratSqrt, cos := fun x => if x = 0 then 1 else 0, sin := fun _ => 0,
    acos := fun _ => 0, eps := 0 }

/-- The line of the spec's own worked example: from (0,0) to (10,0). -/
def line10 : LinePath ℚ := LinePath.new qops ⟨0, 0⟩ ⟨10, 0⟩

/-- A single segment, an invalid closed path (fewer than two segments). -/
def lineSingle : LinePath ℚ := LinePath.new qops ⟨0, 0⟩ ⟨1, 0⟩

/-- Triangle side (0,0) -> (4,0). -/
def triL1 : LinePath ℚ := LinePath.new qops ⟨0, 0⟩ ⟨4, 0⟩

/-- Triangle side (4,0) -> (0,3). -/
def triL2 : LinePath ℚ := LinePath.new qops ⟨4, 0⟩ ⟨0, 3⟩

/-- Triangle side (0,3) -> (0,0). -/
def triL3 : LinePath ℚ := LinePath.new qops ⟨0, 3⟩ ⟨0, 0⟩

/-- The 3-4-5 triangle as a closed segment list (all lengths and all endpoint
gaps are exact rationals). -/
def triSubs : List (SubPath ℚ) :=
  [SubPath.line triL1, SubPath.line triL2, SubPath.line triL3]

/-- Fallback value for unwrapping `Option (ClosedPath ℚ)` in concrete data
(never reached: the construction below succeeds). -/
def junkPath : ClosedPath ℚ := ⟨⟨0, 0⟩, [], [], 0⟩

/-- The validated triangle track: starts table [0, 4, 9], total length 12. -/
def triPath : ClosedPath ℚ := (ClosedPath.new qops true triSubs).getD junkPath

/-- Rational instantiation for the two-arc circle: cosine table 0 -> 1, 2 -> -1,
sine identically 0 (the labels 0 and 2 play the roles of the real angles 0 and
pi). -/
def arcTableOps : FloatOps ℚ :=
  { sqrt := ratSqrt, cos := fun x => if x = 0 then 1 else -1, sin := fun _ => 0,
    acos := fun _ => 0, eps := 0 }

/-- Counterclockwise upper half of the unit circle (angle labels 0 to 2). -/
def arcA : ArcPath ℚ := ArcPath.new arcTableOps ⟨0, 0⟩ 1 0 2

/-- The same half circle traversed back, clockwise (labels 2 to 0). -/
def arcB : ArcPath ℚ := ArcPath.new arcTableOps ⟨0, 0⟩ 1 2 0

/-- A valid all-arc closed path; the point (0,-1) is outside both arcs' sector
tests, so every per-segment signed distance is `+infinity`. -/
def twoArcPath : ClosedPath ℚ :=
  (ClosedPath.new arcTableOps true [SubPath.arc arcA, SubPath.arc arcB]).getD junkPath

/-- Rational instantiation for the wide-arc counterexample of claim C3.  The
angle labels 0, 2, 3 stand for the real angles 0, about 4.07 (an angle in the
third quadrant with direction (-3/5, -4/5)) and 3*pi/2: the table is the real
cosine and sine up to an order-preserving relabeling of angles, so the arc from
label 0 to label 3 is an arc whose angular span exceeds pi, and label 2 is
angularly inside it. -/
def ops3 : FloatOps ℚ :=
  { sqrt := ratSqrt
    cos := fun x => if x = 0 then 1 else if x = 2 then -3 / 5 else 0
    sin := fun x => if x = 0 then 0 else if x = 2 then -4 / 5 else -1
    acos := fun _ => 0, eps := 0 }

/-- Counterclockwise arc of angular span exceeding pi (labels 0 to 3). -/
def arc3 : ArcPath ℚ := ArcPath.new ops3 ⟨0, 0⟩ 1 0 3

/-- A point on the unit circle at angle label 2, angularly inside `arc3` but
rejected by the cross-product sector test. -/
def pt3 : V2 ℚ := ⟨-3 / 5, -4 / 5⟩

/-- A concrete simulation state on the triangle track: the robot sits exactly on
the first side at (1,0) heading 0 with both wheels at 50 rad/s (forward speed
2), while the time-parameterized reference position `speed * time = 5` lies on
the second side, whose tangent (-4/5, 3/5) differs from the first side's (1,0). -/
def simC7 : RobotSimulation ℚ :=
  { t := 0, x := ![1, 0, 0, 50, 0, 50, 0], controls := fun _ => 0, path := triPath,
    prev_error := 0, int_error := 0, kp := 1, ki := 1, kd := 1, speed := 2,
    time := 5 / 2 }

/-! Helper lemmas. -/

/-- The `min_by` accumulator always lands on the initial value or a list element. -/
theorem minByAbsKeyAux_mem [LinearOrderedField F] {α : Type} (key : α → WithTop F) :
    ∀ (l : List α) (m : α), minByAbsKeyAux key m l ∈ m :: l := by
  intro l
  induction l with
  | nil => intro m; simp [minByAbsKeyAux]
  | cons a t ih =>
    intro m
    show minByAbsKeyAux key (if wabs (key a) < wabs (key m) then a else m) t ∈ m :: a :: t
    by_cases hc : wabs (key a) < wabs (key m)
    · rw [if_pos hc]
      exact List.mem_cons_of_mem _ (ih a)
    · rw [if_neg hc]
      rcases List.mem_cons.1 (ih m) with h1 | h1
      · rw [h1]; exact List.mem_cons_self _ _
      · exact List.mem_cons_of_mem _ (List.mem_cons_of_mem _ h1)

/-- The `min_by` accumulator has a key of minimal absolute value among the
initial value and the list elements. -/
theorem minByAbsKeyAux_le [LinearOrderedField F] {α : Type} (key : α → WithTop F) :
    ∀ (l : List α) (m : α), ∀ y ∈ m :: l,
      wabs (key (minByAbsKeyAux key m l)) ≤ wabs (key y) := by
  intro l
  induction l with
  | nil =>
    intro m y hy
    rcases List.mem_cons.1 hy with h | h
    · subst h; simp [minByAbsKeyAux]
    · simp at h
  | cons a t ih =>
    intro m y hy
    have hm' : wabs (key (if wabs (key a) < wabs (key m) then a else m)) ≤ wabs (key m)
        ∧ wabs (key (if wabs (key a) < wabs (key m) then a else m)) ≤ wabs (key a) := by
      by_cases hc : wabs (key a) < wabs (key m)
      · rw [if_pos hc]; exact ⟨le_of_lt hc, le_refl _⟩
      · rw [if_neg hc]; exact ⟨le_refl _, le_of_not_lt hc⟩
    have hgoal :
        wabs (key (minByAbsKeyAux key (if wabs (key a) < wabs (key m) then a else m) t))
          ≤ wabs (key y) := by
      rcases List.mem_cons.1 hy with h | h
      · rw [h]
        exact le_trans
          (ih (if wabs (key a) < wabs (key m) then a else m) _ (List.mem_cons_self _ _))
          hm'.1
      · rcases List.mem_cons.1 h with h1 | h1
        · rw [h1]
          exact le_trans
            (ih (if wabs (key a) < wabs (key m) then a else m) _ (List.mem_cons_self _ _))
            hm'.2
        · exact ih (if wabs (key a) < wabs (key m) then a else m) y
            (List.mem_cons_of_mem _ h1)
    exact hgoal

/-- `min_by` on a nonempty list succeeds and returns an element of minimal
absolute key. -/
theorem minByAbsKey_spec [LinearOrderedField F] {α : Type} (key : α → WithTop F)
    (l : List α) (h : l ≠ []) :
    ∃ r, minByAbsKey key l = some r ∧ r ∈ l ∧ ∀ y ∈ l, wabs (key r) ≤ wabs (key y) := by
  cases l with
  | nil => exact absurd rfl h
  | cons a t =>
    exact ⟨minByAbsKeyAux key a t, rfl, minByAbsKeyAux_mem key t a,
      fun y hy => minByAbsKeyAux_le key t a y hy⟩

/-- A valid closed path has a nonempty segment list. -/
theorem is_valid_ne_nil [LinearOrderedField F] (ops : FloatOps F)
    (l : List (SubPath F)) (h : is_valid_closed_path ops l = true) : l ≠ [] := by
  intro hl
  subst hl
  simp [is_valid_closed_path] at h

/-- `takeWhile` runs through a prefix on which the predicate holds. -/
theorem takeWhile_append_all {α : Type} (p : α → Bool) :
    ∀ (l1 l2 : List α), (∀ x ∈ l1, p x = true) →
      (l1 ++ l2).takeWhile p = l1 ++ l2.takeWhile p := by
  intro l1
  induction l1 with
  | nil => intro l2 _; simp
  | cons a t ih =>
    intro l2 h
    have ha : p a = true := h a (List.mem_cons_self _ _)
    simp only [List.cons_append, List.takeWhile_cons, ha, if_true]
    rw [ih l2 (fun x hx => h x (List.mem_cons_of_mem _ hx))]

/-- `takeWhile` stops immediately on a list whose elements all fail the predicate. -/
theorem takeWhile_eq_nil_all {α : Type} (p : α → Bool) :
    ∀ (l : List α), (∀ x ∈ l, p x = false) → l.takeWhile p = [] := by
  intro l h
  cases l with
  | nil => simp
  | cons a t =>
    have := h a (List.mem_cons_self _ _)
    simp [List.takeWhile_cons, this]

/-! Claim theorems. -/

/-- Claim C1, counterexample: in a release build (debug assertions disabled) the
validity check of `ClosedPath::new` is compiled out, so the invalid single-segment
list does produce a `ClosedPath` value, contradicting the claim that no value is
ever produced from an invalid list. -/
theorem claim_C1_counterexample :
    is_valid_closed_path qops [SubPath.line lineSingle] = false ∧
      (ClosedPath.new qops false [SubPath.line lineSingle]).isSome = true := by
  decide

/-- Claim C1, amended: with debug assertions enabled (the only configuration in
which `debug_assert!` checks), an invalid segment list aborts construction and
produces no `ClosedPath`; with debug assertions disabled the check is skipped and
any nonempty list (valid or not) produces a value. -/
theorem claim_C1 [LinearOrderedField F] (ops : FloatOps F) (l : List (SubPath F))
    (h : is_valid_closed_path ops l = false) :
    ClosedPath.new ops true l = none ∧
      (l ≠ [] → (ClosedPath.new ops false l).isSome = true) := by
  constructor
  · simp [ClosedPath.new, h]
  · intro hne
    obtain ⟨a, t, rfl⟩ := List.exists_cons_of_ne_nil hne
    simp [ClosedPath.new]

/-- Witness for claim C1 at the single-segment list. -/
theorem claim_C1_witness :
    is_valid_closed_path qops [SubPath.line lineSingle] = false ∧
      ClosedPath.new qops true [SubPath.line lineSingle] = none ∧
      (ClosedPath.new qops false [SubPath.line lineSingle]).isSome = true := by
  refine ⟨by decide, (claim_C1 qops [SubPath.line lineSingle] (by decide)).1,
    (claim_C1 qops [SubPath.line lineSingle] (by decide)).2 (by decide)⟩

/-- Claim C2: for a valid track, `ClosedPath::sdf` returns one of the per-segment
signed distances, of minimal absolute value among them (which of several exactly
tied values is returned is not asserted). -/
theorem claim_C2 [LinearOrderedField F] (ops : FloatOps F) (c : ClosedPath F) (p : V2 F)
    (hv : is_valid_closed_path ops c.subpaths = true) :
    ∃ r, c.sdf ops p = r ∧ r ∈ c.subpaths.map (fun sp => sp.sdf ops p) ∧
      ∀ y ∈ c.subpaths.map (fun sp => sp.sdf ops p), wabs r ≤ wabs y := by
  have hne : c.subpaths ≠ [] := is_valid_ne_nil ops c.subpaths hv
  have hmne : c.subpaths.map (fun sp => sp.sdf ops p) ≠ [] := by
    simpa using hne
  obtain ⟨r, hmin, hmem, hle⟩ := minByAbsKey_spec id _ hmne
  refine ⟨r, ?_, hmem, fun y hy => hle y hy⟩
  simp [ClosedPath.sdf, ClosedPath.sdfRaw, hmin]

/-- Witness for claim C2 on the triangle track at the probe point (1,0). -/
theorem claim_C2_witness :
    is_valid_closed_path qops triPath.subpaths = true ∧
      (∃ r, triPath.sdf qops ⟨1, 0⟩ = r ∧
        r ∈ triPath.subpaths.map (fun sp => sp.sdf qops ⟨1, 0⟩) ∧
        ∀ y ∈ triPath.subpaths.map (fun sp => sp.sdf qops ⟨1, 0⟩), wabs r ≤ wabs y) :=
  ⟨by decide, claim_C2 qops triPath ⟨1, 0⟩ (by decide)⟩

/-- Claim C4, counterexample: for the line from (0,0) to (10,0) the code returns
signed distance -2 at (5,2), not the +2 the claim asserts (the sign convention of
the source is negative on the left of the travel direction). -/
theorem claim_C4_counterexample :
    LinePath.sdf qops line10 ⟨5, 2⟩ = -2 ∧ ¬ LinePath.sdf qops line10 ⟨5, 2⟩ = 2 := by
  decide

/-- Claim C4, amended: the perpendicular cross-product offset is signed by the
side of the line, with (5,2) on the negative side and (5,-2) on the positive
side: `sdf((5,2)) = -2` and `sdf((5,-2)) = 2`. -/
theorem claim_C4 :
    LinePath.sdf qops line10 ⟨5, 2⟩ = -2 ∧ LinePath.sdf qops line10 ⟨5, -2⟩ = 2 := by
  decide

/-- Claim C10: for a valid track, the `min_by` reductions inside `sdf` and
`closest_subpath` succeed (the comparison of two signed distances, `+infinity`
included, is total in the absence of NaN, so the `.unwrap()` cannot panic); if
some segment is a line the returned signed distance is finite; and the all-arc
two-arc circle returns `+infinity` at (0,-1), a point outside both sector tests. -/
theorem claim_C10 [LinearOrderedField F] (ops : FloatOps F) (c : ClosedPath F) (p : V2 F)
    (hv : is_valid_closed_path ops c.subpaths = true) :
    ((c.sdfRaw ops p).isSome = true ∧ (c.closest_subpath ops p).isSome = true) ∧
      ((∃ lp : LinePath F, SubPath.line lp ∈ c.subpaths) → c.sdf ops p ≠ ⊤) ∧
      ClosedPath.sdf arcTableOps twoArcPath ⟨0, -1⟩ = (⊤ : WithTop ℚ) := by
  have hne : c.subpaths ≠ [] := is_valid_ne_nil ops c.subpaths hv
  have hmne : c.subpaths.map (fun sp => sp.sdf ops p) ≠ [] := by simpa using hne
  refine ⟨⟨?_, ?_⟩, ?_, by decide⟩
  · obtain ⟨r, hmin, _, _⟩ := minByAbsKey_spec id _ hmne
    simp [ClosedPath.sdfRaw, hmin]
  · obtain ⟨a, t, hat⟩ := List.exists_cons_of_ne_nil hne
    simp [ClosedPath.closest_subpath, hat, minByAbsKey]
  · rintro ⟨lp, hlp⟩ htop
    obtain ⟨r, hmin, _, hle⟩ := minByAbsKey_spec id _ hmne
    have hsdf : c.sdf ops p = r := by simp [ClosedPath.sdf, ClosedPath.sdfRaw, hmin]
    have hy : (some (lp.sdf ops p) : WithTop F) ∈ c.subpaths.map (fun sp => sp.sdf ops p) :=
      List.mem_map.2 ⟨SubPath.line lp, hlp, rfl⟩
    have hler := hle _ hy
    rw [hsdf] at htop
    rw [htop] at hler
    simp [wabs] at hler

/-- Witness for claim C10 on the triangle track (which contains lines) at (1,0). -/
theorem claim_C10_witness :
    is_valid_closed_path qops triPath.subpaths = true ∧
      ((triPath.sdfRaw qops ⟨1, 0⟩).isSome = true ∧
        (triPath.closest_subpath qops ⟨1, 0⟩).isSome = true) ∧
      triPath.sdf qops ⟨1, 0⟩ ≠ ⊤ :=
  ⟨by decide, (claim_C10 qops triPath ⟨1, 0⟩ (by decide)).1,
    (claim_C10 qops triPath ⟨1, 0⟩ (by decide)).2.1 ⟨triL1, by decide⟩⟩

/-- Claim C3, counterexample: the counterclockwise arc `arc3` spans more than pi
(in the relabeled angles of `ops3`), the point `pt3` is angularly between the
endpoint angles, yet the cross-product sector test rejects it and the code
returns `+infinity` instead of `distance(p, center) - r`. -/
theorem claim_C3_counterexample :
    (0 : ℚ) < 1 ∧ ((3 : ℚ) ≠ 0) ∧ ¬ claimC3Statement ops3 ⟨0, 0⟩ 1 0 3 pt3 := by
  refine ⟨by norm_num, by norm_num, fun h => ?_⟩
  have hb : angularlyBetween ops3 (ArcPath.new ops3 ⟨0, 0⟩ 1 0 3) pt3 := by
    refine ⟨2, 1, by norm_num, Or.inl ⟨by decide, by decide, by decide⟩, by decide⟩
  exact absurd (h.1 hb) (by decide)

/-- Claim C3, amended: for every arc (radius positive, distinct endpoint angles)
and every point, the signed distance is `distance(p, center) - r` (sign flipped
when clockwise) exactly when the point passes the cross-product sector test
against the endpoint radius vectors, and `+infinity` otherwise; the sector test
coincides with angular betweenness only for spans of at most pi. -/
theorem claim_C3 [LinearOrderedField F] (ops : FloatOps F) (center : V2 F)
    (r theta0 theta1 : F) (p : V2 F) (hr : 0 < r) (hth : theta1 ≠ theta0) :
    (ArcPath.new ops center r theta0 theta1).sdf ops p
      = specArcSdfAmended ops (ArcPath.new ops center r theta0 theta1) p := by
  set a := ArcPath.new ops center r theta0 theta1 with ha
  by_cases h0c : a.counterclockwise = true
  · by_cases h0 : 0 ≤ V2.cross a.v0 (p - a.center)
      <;> by_cases h1 : 0 ≤ V2.cross (p - a.center) a.v1
      <;> simp [ArcPath.sdf, specArcSdfAmended, ArcPath.within_bounds, h0c, h0, h1]
  · have h0c' : a.counterclockwise = false := by
      cases hb : a.counterclockwise
      · rfl
      · exact absurd hb h0c
    by_cases h0 : V2.cross a.v0 (p - a.center) ≤ 0
      <;> by_cases h1 : V2.cross (p - a.center) a.v1 ≤ 0
      <;> simp [ArcPath.sdf, specArcSdfAmended, ArcPath.within_bounds, h0c', h0, h1]

/-- Witness for claim C3 at the concrete arc `arc3` and point `pt3`. -/
theorem claim_C3_witness :
    ((0 : ℚ) < 1 ∧ ((3 : ℚ) ≠ 0)) ∧
      (ArcPath.new ops3 ⟨0, 0⟩ 1 0 3).sdf ops3 pt3
        = specArcSdfAmended ops3 (ArcPath.new ops3 ⟨0, 0⟩ 1 0 3) pt3 :=
  ⟨⟨by norm_num, by norm_num⟩,
    claim_C3 ops3 ⟨0, 0⟩ 1 0 3 pt3 (by norm_num) (by norm_num)⟩

/-- Claim C5: one call of `RobotSimulation::step(dt)` with a finite signed
distance `e` at the robot position performs exactly the spec's sequence —
`deriv_error = (e - prev_error)/dt`, `int_error += prev_error * dt` using the
previous error before it is overwritten, `prev_error = e`, the command split
`(ul, ur) = ((um-v)/2, (um+v)/2)` with `v = (side_length*C2/wheel_radius) *
(kp*e + ki*int_error + kd*deriv_error)` and `um = 2*speed*C2/wheel_radius`, and
one RK4 step with that command held constant. -/
theorem claim_C5 [LinearOrderedField F] (ops : FloatOps F) (dt : F)
    (s : RobotSimulation F) (e : F)
    (h : s.robot_sdf_to_path ops = (e : WithTop F)) :
    RobotSimulation.step ops dt s = specStepC5 ops dt s e := by
  have he : s.theta_error_estimate ops = e := by
    simp [RobotSimulation.theta_error_estimate, h]
  simp only [RobotSimulation.step, RobotSimulation.calculate_control, specStepC5, he]
  rfl

/-- Witness for claim C5: the state `simC7` sits exactly on the triangle track
(signed distance 0), and one step of period 1 follows the spec pipeline. -/
theorem claim_C5_witness :
    RobotSimulation.robot_sdf_to_path qops simC7 = ((0 : ℚ) : WithTop ℚ) ∧
      RobotSimulation.step qops 1 simC7 = specStepC5 qops 1 simC7 0 :=
  ⟨by decide, claim_C5 qops 1 simC7 0 (by decide)⟩

/-- Claim C6: `Rk4::step` is exactly the classic 4-stage Runge-Kutta update of
the spec, with the same control input `u` passed to all four stage evaluations;
it is a total function (no failure path). -/
theorem claim_C6 [LinearOrderedField F] {n m : ℕ}
    (f : F → (Fin n → F) → (Fin m → F) → (Fin n → F)) (dt : F) (u : Fin m → F)
    (s : OdeState n F) :
    Rk4.step f dt u s = specRk4Step f dt u s := by
  have e1 : (fun j => s.x j + dt * f s.t s.x u j / 2)
      = (fun j => s.x j + (dt / 2) * f s.t s.x u j) := by
    funext j; ring
  simp only [Rk4.step, specRk4Step, e1]
  have e2 : (fun j => s.x j
        + dt * f (s.t + dt / 2) (fun j => s.x j + (dt / 2) * f s.t s.x u j) u j / 2)
      = (fun j => s.x j
        + (dt / 2) * f (s.t + dt / 2) (fun j => s.x j + (dt / 2) * f s.t s.x u j) u j) := by
    funext j; ring
  simp only [e2]
  ext j
  · rfl
  · ring

/-- Claim C7, counterexample: the velocity reward of the code uses the
projection tangent at the robot position, not the tangent at the
time-parameterized reference position: at `simC7` the code returns 2 (tangent
(1,0) of the side the robot sits on) while the claim's reference-tangent value
is -8/5 (tangent (-4/5, 3/5) at arclength `speed * time = 5`). -/
theorem claim_C7_counterexample :
    RobotSimulation.robot_velocity_reward qops simC7 = 2 ∧
      specVelocityRewardRef qops simC7 = -8 / 5 ∧
      ¬ RobotSimulation.robot_velocity_reward qops simC7
          = specVelocityRewardRef qops simC7 := by
  decide

/-- Claim C7, amended: the velocity reward is the dot product of the robot's
instantaneous velocity (forward speed `wheel_radius*(wl+wr)/2` along the heading)
with the projection tangent of the track at the robot's own position. -/
theorem claim_C7 [LinearOrderedField F] (ops : FloatOps F) (s : RobotSimulation F) :
    s.robot_velocity_reward ops
      = V2.dot (specRobotVelocity ops s) (s.robot_projection_tangent ops) := by
  simp only [RobotSimulation.robot_velocity_reward, specRobotVelocity, V2.dot, V2.smul]
  ring

/-- The fitness loop accumulates exactly the sum of the per-tick rewards of the
states visited before each step. -/
theorem fitnessLoop_eq_sum [LinearOrderedField F] [FloorRing F] (ops : FloatOps F)
    (dt : F) :
    ∀ (N : ℕ) (s : RobotSimulation F) (acc : F),
      fitnessLoop ops dt N s acc
        = acc + ∑ i ∈ Finset.range N,
            fitnessReward ops dt ((RobotSimulation.step ops dt)^[i] s) := by
  intro N
  induction N with
  | zero => intro s acc; simp [fitnessLoop]
  | succ n ih =>
    intro s acc
    rw [fitnessLoop, ih, Finset.sum_range_succ']
    simp only [Function.iterate_succ_apply, Function.iterate_zero_apply]
    ring

/-- Claim C8: the optimizer fitness over `N` ticks equals the sum over the ticks
of `(velocity_reward - w_e * squared_error - w_d * squared_cross_track) * dt`
with the fixed nonnegative weights `w_e = 0.5`, `w_d = 0.9`, each term evaluated
on the state before that tick steps. -/
theorem claim_C8 [LinearOrderedField F] [FloorRing F] (ops : FloatOps F)
    (N : ℕ) (dt : F) (path : ClosedPath F) (kp ki kd speed : F) :
    evaluate_fitness ops N dt path kp ki kd speed
        = specFitnessSum ops N dt path kp ki kd speed
      ∧ (0 : F) ≤ fitWE ∧ (0 : F) ≤ fitWD := by
  refine ⟨?_, by norm_num [fitWE], by norm_num [fitWD]⟩
  rw [evaluate_fitness, fitnessLoop_eq_sum]
  simp [specFitnessSum, fitnessReward]

/-- Claim C9, counterexample: at the cumulative start 4 of the triangle track
(the boundary between the first and second segments), the code delegates to the
first segment with local offset 4 (tangent (1,0)), while the claim's rule (last
entry with start ≤ d, local offset 0) selects the second segment (tangent
(-4/5, 3/5)). -/
theorem claim_C9_counterexample :
    ClosedPath.tangent_at qops triPath 4 = ⟨1, 0⟩ ∧
      specC9TangentAt qops triPath 4 = ⟨-4 / 5, 3 / 5⟩ ∧
      ¬ ClosedPath.tangent_at qops triPath 4 = specC9TangentAt qops triPath 4 := by
  decide

/-- Claim C9, amended: `point_at` and `tangent_at` reduce `d` with the Rust `%`
remainder by the total length and delegate to the segment at the last table
index whose start is strictly less than the reduced `d` (index 0 when there is
none), with local offset `d - start`; consequently, when the reduced `d` equals
a nonzero cumulative start, the previous segment is selected with its full
length as the offset, not the claimed segment with offset 0.  The hypotheses
split the table into the prefix of entries strictly below the reduced `d` and
the rest. -/
theorem claim_C9 [LinearOrderedField F] [FloorRing F] (ops : FloatOps F)
    (c : ClosedPath F) (d : F) (pre post : List F)
    (hsplit : c.starts = pre ++ post) (hpre : pre ≠ [])
    (hlt : ∀ x ∈ pre, x < rustRem d c.length)
    (hge : ∀ x ∈ post, rustRem d c.length ≤ x) :
    c.first_subpath_dist d
        = (rustRem d c.length - c.starts.getD (pre.length - 1) 0,
           c.subpaths.getD (pre.length - 1) default) ∧
      c.point_at ops d = (c.subpaths.getD (pre.length - 1) default).point_at ops
        (rustRem d c.length - c.starts.getD (pre.length - 1) 0) ∧
      c.tangent_at ops d = (c.subpaths.getD (pre.length - 1) default).tangent_at ops
        (rustRem d c.length - c.starts.getD (pre.length - 1) 0) := by
  have hidx : (c.starts.takeWhile (fun x => decide (x < rustRem d c.length))).length
      = pre.length := by
    rw [hsplit, takeWhile_append_all _ pre post
        (fun x hx => decide_eq_true (hlt x hx)),
      takeWhile_eq_nil_all _ post
        (fun x hx => decide_eq_false (not_lt.2 (hge x hx)))]
    simp
  have h1 : c.first_subpath_dist d
      = (rustRem d c.length - c.starts.getD (pre.length - 1) 0,
         c.subpaths.getD (pre.length - 1) default) := by
    simp only [ClosedPath.first_subpath_dist, hidx]
  exact ⟨h1, by simp only [ClosedPath.point_at, h1],
    by simp only [ClosedPath.tangent_at, h1]⟩

/-- Witness for claim C9 on the triangle track at `d = 16` (reduced to 4, the
boundary): the prefix of starts strictly below 4 is `[0]`, so segment 0 owns the
query with offset 4. -/
theorem claim_C9_witness :
    (triPath.starts = [0] ++ [4, 9] ∧ (([0] : List ℚ) ≠ []) ∧
      (∀ x ∈ ([0] : List ℚ), x < rustRem 16 triPath.length) ∧
      (∀ x ∈ ([4, 9] : List ℚ), rustRem 16 triPath.length ≤ x)) ∧
      triPath.first_subpath_dist 16
        = (rustRem 16 triPath.length - triPath.starts.getD 0 0,
           triPath.subpaths.getD 0 default) :=
  ⟨⟨by decide, by decide, by decide, by decide⟩,
    (claim_C9 qops triPath 16 [0] [4, 9] (by decide) (by decide) (by decide)
      (by decide)).1⟩

end LineFollowerRs
